import Mathlib

/-!
Verification of the storage and versioning engine of the mcp-registry
repository against its natural-language specification.

The Lean definitions below are a shallow embedding of the Go source:

* `internal/database/jsonfile.go` — the embedded JSON-file backend
  (`JSONFileDB`, `CreateServer`, `UnmarkAsLatest`, `ListServers`,
  `GetServerByNameAndVersion`, `load`/`Reload`, `save`);
* `internal/aws/s3.go` — `ParseS3URL` and its helpers;
* `internal/aws/sqs.go` — the SQS polling pipeline (`processMessage`,
  `receiveAndProcessMessages`, `pollMessages`).

Go machine details that the claims do not touch are modelled as follows:
timestamps are `Nat`; the opaque `apiv0.ServerJSON` payload is a structure
carrying the fields the engine reads (`name`, `version`, `remotes`) plus an
opaque `description` field standing for the rest of the document; Go `nil`
pointers are `Option`; a Go runtime panic (nil-pointer dereference, index
out of range) is `Option.none` in the result of the operation that panics;
file-system I/O (`os.ReadFile`, `os.WriteFile` + `os.Rename`) is an explicit
`FileState` component of the backend state, with `save` assumed to succeed
(its failure is an environment fault no claim depends on).
-/

namespace MCPRegistry

/-- The fields of `apiv0.ServerJSON` that the engine reads, plus an opaque
rest-of-document field. `remotes` holds the URLs of the payload's remote
endpoints (`record.Value.Remotes[i].URL`). -/
structure ServerJSON where
  name : String
  version : String
  remotes : List String
  description : String
deriving DecidableEq, Repr

/-- `apiv0.RegistryExtensions`: the registry-owned metadata envelope. -/
structure RegistryExtensions where
  status : String
  publishedAt : Nat
  updatedAt : Nat
  isLatest : Bool
deriving DecidableEq, Repr

/-- `serverRecord` from jsonfile.go: one server version in storage.
`value` is the `Value *apiv0.ServerJSON` pointer (`none` = Go `nil`). -/
structure serverRecord where
  serverName : String
  version : String
  status : String
  publishedAt : Nat
  updatedAt : Nat
  isLatest : Bool
  value : Option ServerJSON
  meta : Option RegistryExtensions
deriving DecidableEq, Repr

/-- `jsonFileData`: the structure stored in the JSON file. -/
structure jsonFileData where
  servers : List serverRecord
deriving DecidableEq, Repr

/-- The parseability status of the bytes of the backend file, abstracting
`os.ReadFile` + `json.Unmarshal` outcomes. -/
inductive FileBytes where
  | empty
  | valid (d : jsonFileData)
  | malformed
deriving DecidableEq, Repr

/-- The backend file on disk: absent (`os.ReadFile` fails with not-exist),
or present with some contents. -/
inductive FileState where
  | absent
  | contents (bytes : FileBytes)
deriving DecidableEq, Repr

/-- `JSONFileDB`: in-memory dataset plus the mirrored file. The mutexes of
the Go struct guard concurrency only and carry no sequential state. -/
structure JSONFileDB where
  data : jsonFileData
  file : FileState
deriving DecidableEq, Repr

/-- Error taxonomy of the database package (`ErrNotFound`,
`ErrAlreadyExists`, `ErrDatabase`). -/
inductive DBError where
  | notFound
  | alreadyExists
  | database
deriving DecidableEq, Repr

/-- `apiv0.ServerResponse`: payload plus the `Meta.Official` envelope. -/
structure ServerResponse where
  server : ServerJSON
  meta : Option RegistryExtensions
deriving DecidableEq, Repr

/-- The response metadata built from a stored record (the
`&apiv0.RegistryExtensions{...}` literal repeated in jsonfile.go reads). -/
def recordMeta (r : serverRecord) : RegistryExtensions :=
  { status := r.status, publishedAt := r.publishedAt,
    updatedAt := r.updatedAt, isLatest := r.isLatest }

/-- `save` (jsonfile.go lines 102-115): serialize the in-memory structure
and atomically rename it over the target path. Serialization of this data
never fails and produces a non-empty document that parses back to the same
structure, so the file becomes a valid image of `data`. -/
def save (db : JSONFileDB) : JSONFileDB :=
  { db with file := .contents (.valid db.data) }

/-- `load` (jsonfile.go lines 74-92): read the file; a read failure
(including absence) is returned as an error; empty contents leave the
in-memory data unchanged; otherwise parse and replace `db.data` wholesale.
`none` in the first component means success, `some e` the returned error. -/
inductive LoadError where
  | ioError
  | parseError
deriving DecidableEq, Repr

def load (db : JSONFileDB) : Option LoadError × JSONFileDB :=
  match db.file with
  | .absent => (some .ioError, db)
  | .contents .empty => (none, db)
  | .contents (.valid d) => (none, { db with data := d })
  | .contents .malformed => (some .parseError, db)

/-- `Reload` (jsonfile.go lines 94-99): take the exclusive lock and `load`.
The lock has no sequential effect. -/
def Reload (db : JSONFileDB) : Option LoadError × JSONFileDB :=
  load db

/-- `NewJSONFileDB` (jsonfile.go lines 55-72): start from an empty dataset;
if the file exists, `load` it (and fail if that fails); an absent file is
not an error. -/
def NewJSONFileDB (file : FileState) : Option (JSONFileDB) :=
  let db : JSONFileDB := { data := { servers := [] }, file := file }
  match file with
  | .absent => some db
  | .contents _ =>
    match load db with
    | (none, db') => some db'
    | (some _, _) => none

/-- Whether a record with the given name and version exists (the duplicate
scan of `CreateServer`, jsonfile.go lines 122-127). -/
def hasNameVersion (servers : List serverRecord) (name version : String) : Bool :=
  servers.any fun r => r.serverName == name && r.version == version

/-- The default metadata used by `CreateServer` when `officialMeta` is nil
(jsonfile.go lines 129-137): `status=active`, both timestamps `now`,
`isLatest=true`. -/
def defaultMeta (now : Nat) : RegistryExtensions :=
  { status := "active", publishedAt := now, updatedAt := now, isLatest := true }

/-- The record built by `CreateServer` (jsonfile.go lines 139-148) from the
payload and the (possibly defaulted) metadata. -/
def createdRecord (now : Nat) (serverJSON : ServerJSON)
    (officialMeta : Option RegistryExtensions) : serverRecord :=
  let meta := officialMeta.getD (defaultMeta now)
  { serverName := serverJSON.name
    version := serverJSON.version
    status := meta.status
    publishedAt := meta.publishedAt
    updatedAt := meta.updatedAt
    isLatest := meta.isLatest
    value := some serverJSON
    meta := some meta }

/-- `CreateServer` (jsonfile.go lines 117-162). Returns the response (or
error) together with the backend state after the call; `now` is the value
of `time.Now()`. -/
def CreateServer (db : JSONFileDB) (now : Nat) (serverJSON : ServerJSON)
    (officialMeta : Option RegistryExtensions) :
    Except DBError ServerResponse × JSONFileDB :=
  if hasNameVersion db.data.servers serverJSON.name serverJSON.version then
    (.error .alreadyExists, db)
  else
    let meta := officialMeta.getD (defaultMeta now)
    let record := createdRecord now serverJSON officialMeta
    let db' := save { db with data := { servers := db.data.servers ++ [record] } }
    (.ok { server := serverJSON, meta := some meta }, db')

/-- The per-record update of `UnmarkAsLatest` (jsonfile.go lines 432-437):
clear `isLatest` on every record of the given name. -/
def unmarkRecord (serverName : String) (r : serverRecord) : serverRecord :=
  if r.serverName == serverName && r.isLatest then { r with isLatest := false } else r

/-- `UnmarkAsLatest` (jsonfile.go lines 426-444): clear `isLatest` on every
record of that name; if none was latest, return without saving. -/
def UnmarkAsLatest (db : JSONFileDB) (serverName : String) : JSONFileDB :=
  let found := db.data.servers.any fun r => r.serverName == serverName && r.isLatest
  let db' : JSONFileDB :=
    { db with data := { servers := db.data.servers.map (unmarkRecord serverName) } }
  if found then save db' else db'

/-- `GetServerByNameAndVersion` (jsonfile.go lines 334-356): first record
matching name and version. The outer `Option` is `none` when the Go code
panics dereferencing a nil `record.Value`. -/
def GetServerByNameAndVersion (db : JSONFileDB) (serverName version : String) :
    Option (Except DBError ServerResponse) :=
  match db.data.servers.find? (fun r => r.serverName == serverName && r.version == version) with
  | some r =>
    match r.value with
    | some v => some (.ok { server := v, meta := some (recordMeta r) })
    | none => none
  | none => some (.error .notFound)

/-- `ServerFilter`: the optional, AND-combined filter fields of
`ListServers`. Timestamps are `Nat` as elsewhere. -/
structure ServerFilter where
  name : Option String := none
  version : Option String := none
  isLatest : Option Bool := none
  substringName : Option String := none
  updatedSince : Option Nat := none
  remoteURL : Option String := none
deriving DecidableEq, Repr

/-- `strings.Contains` on character lists: whether `sub` occurs inside `s`. -/
def containsSub (sub : List Char) : List Char → Bool
  | [] => sub.isEmpty
  | c :: rest => sub.isPrefixOf (c :: rest) || containsSub sub rest

/-- `strings.ToLower` for the ASCII names the registry uses. -/
def lowerStr (s : String) : List Char :=
  s.data.map Char.toLower

/-- The filter block of the `ListServers` scan loop (jsonfile.go lines
252-281), evaluated in source order with `continue` = `some false`.
`none` models the Go nil-pointer panic: the `RemoteURL` check reads
`record.Value.Remotes` without checking `record.Value` for nil. -/
def recordPasses (filter : Option ServerFilter) (r : serverRecord) : Option Bool :=
  match filter with
  | none => some true
  | some f =>
    if (match f.name with | some n => r.serverName != n | none => false) then some false
    else if (match f.version with | some v => r.version != v | none => false) then some false
    else if (match f.isLatest with | some b => r.isLatest != b | none => false) then some false
    else if (match f.substringName with
             | some s => !containsSub (lowerStr s) (lowerStr r.serverName)
             | none => false) then some false
    else if (match f.updatedSince with
             | some t => !decide (t < r.updatedAt)
             | none => false) then some false
    else
      match f.remoteURL with
      | none => some true
      | some u =>
        match r.value with
        | none => none
        | some v => some (v.remotes.contains u)

/-- The start index of the `ListServers` scan (jsonfile.go lines 234-246):
split the cursor on `:`; if it has exactly two parts and a record matches,
resume just after it; otherwise (empty, malformed, or not-found cursor)
restart from the beginning. `strings.Split` on a single-character
separator is modelled by `splitOnChar`. -/
def splitOnChar (sep : Char) : List Char → List (List Char)
  | [] => [[]]
  | c :: rest =>
    if c = sep then [] :: splitOnChar sep rest
    else
      match splitOnChar sep rest with
      | [] => [[c]]
      | part :: parts => (c :: part) :: parts

def computeStartIndex (servers : List serverRecord) (cursor : String) : Nat :=
  if cursor = "" then 0
  else
    match splitOnChar ':' cursor.data with
    | [cursorName, cursorVersion] =>
      match servers.findIdx?
          (fun r => r.serverName.data == cursorName && r.version.data == cursorVersion) with
      | some i => i + 1
      | none => 0
    | _ => 0

/-- The collection loop of `ListServers` (jsonfile.go lines 249-298) over
the records from the start index on; `cnt` is the number of results
collected so far. `none` models the Go nil-pointer panic: a passing record
is appended as `*record.Value`, with no nil check. -/
def collectAux (filter : Option ServerFilter) (limit : Nat) :
    List serverRecord → Nat → Option (List ServerResponse)
  | [], _ => some []
  | r :: rest, cnt =>
    match recordPasses filter r with
    | none => none
    | some false => collectAux filter limit rest cnt
    | some true =>
      match r.value with
      | none => none
      | some v =>
        if cnt + 1 ≥ limit then some [{ server := v, meta := some (recordMeta r) }]
        else (collectAux filter limit rest (cnt + 1)).map
          (fun tailResults => { server := v, meta := some (recordMeta r) } :: tailResults)

/-- `ListServers` (jsonfile.go lines 226-308). The outer `Option` is `none`
when the Go code panics. The next cursor is built from
`db.data.Servers[startIndex+len(results)-1]` — the record at that absolute
index in the dataset, whatever the filter skipped. An empty string is the
"no further results" cursor. -/
def ListServers (db : JSONFileDB) (filter : Option ServerFilter)
    (cursor : String) (limit : Nat) : Option (List ServerResponse × String) :=
  let servers := db.data.servers
  let startIndex := computeStartIndex servers cursor
  match collectAux filter limit (servers.drop startIndex) 0 with
  | none => none
  | some results =>
    if results.length = limit ∧ startIndex + results.length < servers.length then
      match startIndex + results.length with
      | 0 => none
      | n + 1 =>
        match servers[n]? with
        | some lastRecord => some (results, lastRecord.serverName ++ ":" ++ lastRecord.version)
        | none => none
    else
      some (results, "")

/-! ### Sequences of mutating calls (for the latest-flag invariant) -/

/-- One mutating call of the sequences the invariant claim quantifies over. -/
inductive DBOp where
  | create (now : Nat) (serverJSON : ServerJSON) (officialMeta : Option RegistryExtensions)
  | unmark (serverName : String)
deriving DecidableEq, Repr

/-- Apply one call to the backend state (responses and errors discarded;
a duplicate create leaves the state unchanged, as in the source). -/
def applyOp (db : JSONFileDB) : DBOp → JSONFileDB
  | .create now serverJSON officialMeta => (CreateServer db now serverJSON officialMeta).2
  | .unmark serverName => UnmarkAsLatest db serverName

/-- Run a sequence of calls in order. -/
def runOps (db : JSONFileDB) (ops : List DBOp) : JSONFileDB :=
  ops.foldl applyOp db

/-- The backend constructed over an absent file: an empty dataset. -/
def emptyDB : JSONFileDB :=
  { data := { servers := [] }, file := .absent }

/-- How many records of the given name carry `isLatest = true`. -/
def countLatest (servers : List serverRecord) (name : String) : Nat :=
  (servers.filter fun r => r.serverName == name && r.isLatest).length

/-- Whether a `CreateServer` call with this metadata argument marks its new
record as latest (nil metadata defaults to `isLatest = true`). -/
def marksLatest (officialMeta : Option RegistryExtensions) : Bool :=
  match officialMeta with
  | none => true
  | some m => m.isLatest

/-- A publish-ordered call sequence: every `create` that marks its record
latest is immediately preceded by an `unmark` of the same server name (the
ordering the Registry Service supplies inside a publish transaction).
`prev` records the name unmarked by the immediately preceding call. -/
def publishOrdered : Option String → List DBOp → Bool
  | _, [] => true
  | _, .unmark n :: rest => publishOrdered (some n) rest
  | prev, .create _ s meta :: rest =>
    (if marksLatest meta then prev == some s.name else true) && publishOrdered none rest

/-! ### S3 URL parsing (`internal/aws/s3.go`)

URLs are character lists; the Go byte-indexed scans are modelled by
structurally identical list scans (registry URLs are ASCII). Errors carry
the Go error message. -/

/-- `findSubstring` (s3.go lines 201-218): index of the first occurrence of
`substr` in the scanned list, `none` for Go's `-1`. -/
def findSubstring (substr : List Char) : List Char → Option Nat
  | [] => if substr.isEmpty then some 0 else none
  | c :: rest =>
    if substr.isPrefixOf (c :: rest) then some 0
    else (findSubstring substr rest).map (· + 1)

/-- `extractBucketAndKey` (s3.go lines 186-198): split at the first `/`;
an empty key (or no slash) is a failure. -/
def extractBucketAndKey : List Char → Option (List Char × List Char)
  | [] => none
  | c :: rest =>
    if c = '/' then
      if rest.isEmpty then none else some ([], rest)
    else
      (extractBucketAndKey rest).map fun bk => (c :: bk.1, bk.2)

/-- `parseS3URI` (s3.go lines 109-116): split the part after `s3://` at the
first `/`; no slash is a failure (an empty key is accepted). -/
def parseS3URI : List Char → Option (List Char × List Char)
  | [] => none
  | c :: rest =>
    if c = '/' then some ([], rest)
    else (parseS3URI rest).map fun bk => (c :: bk.1, bk.2)

/-- `parseVirtualHostedStyle` (s3.go lines 154-168). -/
def parseVirtualHostedStyle (host path : List Char) : Option (List Char × List Char) :=
  if host.length > 17 ∧ host.drop (host.length - 17) = ".s3.amazonaws.com".data then
    some (host.take (host.length - 17), path)
  else
    match findSubstring ".s3.".data host with
    | some dotS3Idx =>
      if host.length > 14 ∧ host.drop (host.length - 14) = ".amazonaws.com".data then
        some (host.take dotS3Idx, path)
      else none
    | none => none

/-- `parsePathStyle` (s3.go lines 171-183). -/
def parsePathStyle (host path : List Char) : Option (List Char × List Char) :=
  if host = "s3.amazonaws.com".data then
    extractBucketAndKey path
  else if host.length ≥ 17 ∧ host.take 3 = "s3.".data
      ∧ host.drop (host.length - 14) = ".amazonaws.com".data then
    extractBucketAndKey path
  else
    none

/-- The style dispatch of `parseHTTPSS3URL` (s3.go lines 140-150):
virtual-hosted-style is tried first, then path-style. -/
def tryS3Styles (host path : List Char) : Except String (List Char × List Char) :=
  match parseVirtualHostedStyle host path with
  | some bk => .ok bk
  | none =>
    match parsePathStyle host path with
    | some bk => .ok bk
    | none => .error "invalid S3 URL: unrecognized S3 URL format"

/-- `parseHTTPSS3URL` (s3.go lines 119-151): split the part after
`https://` into host and path at the first `/`. -/
def parseHTTPSS3URL (remaining : List Char) : Except String (List Char × List Char) :=
  match remaining.findIdx? (fun c => c == '/') with
  | none => .error "invalid S3 URL: missing object key"
  | some slashIdx =>
    let host := remaining.take slashIdx
    let path := remaining.drop (slashIdx + 1)
    if path.isEmpty then .error "invalid S3 URL: missing object key"
    else tryS3Styles host path

/-- `ParseS3URL` (s3.go lines 94-106). -/
def ParseS3URL (url : List Char) : Except String (List Char × List Char) :=
  if 5 ≤ url.length ∧ url.take 5 = "s3://".data then
    match parseS3URI (url.drop 5) with
    | some bk => .ok bk
    | none => .error "invalid S3 URI: missing key path"
  else if 8 ≤ url.length ∧ url.take 8 = "https://".data then
    parseHTTPSS3URL (url.drop 8)
  else
    .error "invalid S3 URL: must start with s3:// or https://"

/-! ### SQS sync pipeline (`internal/aws/sqs.go`) -/

/-- Modelled from the spec: `processMessage` (sqs.go line 163) calls a
function `ParseS3URI` of package `aws` whose definition is not under
`src/` (s3.go defines `ParseS3URL` and an unexported helper only). Per the
spec (§4.4, §6) the object-store reference in a queue message "is either a
short-form `scheme://bucket/key` URI or one of the HTTPS object-store URL
shapes", i.e. exactly the grammar `ParseS3URL` accepts. -/
def ParseS3URI' (url : List Char) : Except String (List Char × List Char) :=
  ParseS3URL url

/-- `SQSMessage` (sqs.go lines 29-31): the decoded envelope, whose single
field is tagged `json:"s3_uri"`. -/
structure SQSMessage where
  s3URI : String
deriving DecidableEq, Repr

/-- The body of a received queue message, abstracting the input of
`json.Unmarshal`: either text that is not a JSON document of the expected
kind, or a JSON object whose string fields are listed in order. -/
inductive MessageBody where
  | invalid
  | object (fields : List (String × String))
deriving DecidableEq, Repr

/-- `json.Unmarshal` of a message body into `SQSMessage`: unmarshalling a
non-document fails; for an object, unknown keys are ignored and a missing
`s3_uri` key leaves the zero value `""`. -/
def unmarshalSQSMessage : MessageBody → Option SQSMessage
  | .invalid => none
  | .object fields =>
    some { s3URI := ((fields.find? fun kv => kv.1 == "s3_uri").map fun kv => kv.2).getD "" }

/-- A received queue message (`types.Message`). -/
structure QueueMessage where
  messageId : String
  body : MessageBody
  receiptHandle : String
deriving DecidableEq, Repr

/-- The environment of one processing pass: whether `DownloadFile` succeeds
for a given bucket and key, and the reload callback (`none` models a nil
callback, which is skipped; `some b` a callback returning success `b`). -/
structure SyncEnv where
  downloadOk : List Char → List Char → Bool
  reloadCallback : Option Bool

/-- The failure stages of `processMessage` (sqs.go lines 148-185). -/
inductive ProcessError where
  | parseBody
  | missingS3URI
  | invalidS3URI
  | downloadFailed
  | reloadFailed
deriving DecidableEq, Repr

/-- `processMessage` (sqs.go lines 148-185): unmarshal the body, require a
non-empty `s3_uri`, parse it, download, then run the reload callback. -/
def processMessage (env : SyncEnv) (msg : QueueMessage) : Except ProcessError Unit :=
  match unmarshalSQSMessage msg.body with
  | none => .error .parseBody
  | some sqsMsg =>
    if sqsMsg.s3URI == "" then .error .missingS3URI
    else
      match ParseS3URI' sqsMsg.s3URI.data with
      | .error _ => .error .invalidS3URI
      | .ok bk =>
        if env.downloadOk bk.1 bk.2 then
          match env.reloadCallback with
          | none => .ok ()
          | some true => .ok ()
          | some false => .error .reloadFailed
        else
          .error .downloadFailed

/-- The message loop of `receiveAndProcessMessages` (sqs.go lines 131-143):
first component the messages whose processing succeeded (for which
`deleteMessage` is invoked — the delete call itself is assumed to reach the
queue; its failure is only logged), second the messages left in the queue
after a logged processing failure. A failure `continue`s with the rest. -/
def processLoop (env : SyncEnv) : List QueueMessage → List QueueMessage × List QueueMessage
  | [] => ([], [])
  | m :: rest =>
    match processMessage env m with
    | .error _ =>
      let dk := processLoop env rest
      (dk.1, m :: dk.2)
    | .ok _ =>
      let dk := processLoop env rest
      (m :: dk.1, dk.2)

/-- One poll iteration's input: the `ReceiveMessage` call either fails or
delivers a batch. -/
inductive PollEvent where
  | recvError
  | batch (msgs : List QueueMessage)

/-- `receiveAndProcessMessages` (sqs.go lines 117-146): a receive failure
is returned to the poll loop; otherwise every received message is
processed and the function returns nil regardless of per-message
failures. -/
def receiveAndProcessMessages (env : SyncEnv) (recv : PollEvent) :
    Except Unit (List QueueMessage × List QueueMessage) :=
  match recv with
  | .recvError => .error ()
  | .batch msgs => .ok (processLoop env msgs)

/-- `pollMessages` (sqs.go lines 97-115) over a finite trace of poll
iterations (the loop itself runs until cancelled or stopped): returns the
messages deleted across all iterations and the number of backoff sleeps
taken after receive errors. No iteration outcome terminates the loop. -/
def pollMessages (env : SyncEnv) : List PollEvent → List QueueMessage × Nat
  | [] => ([], 0)
  | e :: rest =>
    match receiveAndProcessMessages env e with
    | .error _ =>
      let db := pollMessages env rest
      (db.1, db.2 + 1)
    | .ok dk =>
      let db := pollMessages env rest
      (dk.1 ++ db.1, db.2)

/-! ### Concrete example data used by counterexamples and witnesses -/

/-- A payload with the given name and version and no remote endpoints. -/
def mkServerJSON (n v : String) : ServerJSON :=
  { name := n, version := v, remotes := [], description := "" }

/-- A stored record with the given key, latest flag and payload pointer. -/
def mkRecord (n v : String) (latest : Bool) (val : Option ServerJSON) : serverRecord :=
  { serverName := n, version := v, status := "active", publishedAt := 0, updatedAt := 0,
    isLatest := latest, value := val, meta := none }

/-- Dataset for the pagination counterexample: one record of name `a` and
two of name `b`, all with valid payloads, in append order. -/
def dbPagination : JSONFileDB :=
  { data := { servers := [mkRecord "a" "1" false (some (mkServerJSON "a" "1")),
                          mkRecord "b" "1" false (some (mkServerJSON "b" "1")),
                          mkRecord "b" "2" false (some (mkServerJSON "b" "2"))] },
    file := .absent }

/-- Filter matching exactly the records named `b`. -/
def filterNameB : ServerFilter := { name := some "b" }

/-- The listing response for the record `b@1` of `dbPagination`. -/
def respB1 : ServerResponse :=
  { server := mkServerJSON "b" "1",
    meta := some { status := "active", publishedAt := 0, updatedAt := 0, isLatest := false } }

/-- Dataset of the repository's own test `TestListServers_WithNilValue`:
one valid record alongside one whose payload pointer is nil. -/
def dbNilValue : JSONFileDB :=
  { data := { servers := [mkRecord "io.github.test/valid-server" "1.0.0" true
                            (some (mkServerJSON "io.github.test/valid-server" "1.0.0")),
                          mkRecord "io.github.test/corrupted-server" "1.0.0" true none] },
    file := .absent }

/-- A backend whose dataset is non-empty while its file is absent. -/
def dbAbsentFile : JSONFileDB :=
  { data := { servers := [mkRecord "a" "1" true (some (mkServerJSON "a" "1"))] },
    file := .absent }

/-- A backend holding one record, with a valid file image. -/
def dbOneRecord : JSONFileDB :=
  save { data := { servers := [mkRecord "a" "1" true (some (mkServerJSON "a" "1"))] },
         file := .absent }

/-- A sync environment in which every download and the reload succeed. -/
def envAllOk : SyncEnv :=
  { downloadOk := fun _ _ => true, reloadCallback := some true }

deriving instance DecidableEq for Except

/-! ### Helper lemmas -/

theorem hasNameVersion_iff (servers : List serverRecord) (name version : String) :
    hasNameVersion servers name version = true ↔
      ∃ r ∈ servers, r.serverName = name ∧ r.version = version := by
  simp [hasNameVersion, List.any_eq_true, Bool.and_eq_true, beq_iff_eq]

theorem save_data (db : JSONFileDB) : (save db).data = db.data := rfl

theorem UnmarkAsLatest_data (db : JSONFileDB) (n : String) :
    (UnmarkAsLatest db n).data.servers = db.data.servers.map (unmarkRecord n) := by
  unfold UnmarkAsLatest
  by_cases h : (db.data.servers.any fun r => r.serverName == n && r.isLatest) = true <;>
    simp [h, save]

theorem CreateServer_snd_data (db : JSONFileDB) (now : Nat) (s : ServerJSON)
    (meta : Option RegistryExtensions) :
    (CreateServer db now s meta).2.data.servers =
      if hasNameVersion db.data.servers s.name s.version then db.data.servers
      else db.data.servers ++ [createdRecord now s meta] := by
  unfold CreateServer
  split <;> rfl

theorem createdRecord_serverName (now : Nat) (s : ServerJSON)
    (meta : Option RegistryExtensions) : (createdRecord now s meta).serverName = s.name := rfl

theorem createdRecord_isLatest (now : Nat) (s : ServerJSON)
    (meta : Option RegistryExtensions) :
    (createdRecord now s meta).isLatest = marksLatest meta := by
  cases meta <;> rfl

theorem countLatest_nil (n : String) : countLatest [] n = 0 := rfl

theorem countLatest_unmark_self (servers : List serverRecord) (n : String) :
    countLatest (servers.map (unmarkRecord n)) n = 0 := by
  induction servers with
  | nil => rfl
  | cons r rest ih =>
    by_cases h : (r.serverName == n && r.isLatest) = true
    · have h1 : unmarkRecord n r = { r with isLatest := false } := by
        simp [unmarkRecord, h]
      simp [countLatest, List.filter_cons, h1] at *
      exact ih
    · have h1 : unmarkRecord n r = r := by
        simp only [unmarkRecord, if_neg h]
      simp only [List.map_cons, h1, countLatest, List.filter_cons, h, if_false] at *
      exact ih

theorem countLatest_unmark_ne (servers : List serverRecord) {m n : String} (hmn : m ≠ n) :
    countLatest (servers.map (unmarkRecord m)) n = countLatest servers n := by
  induction servers with
  | nil => rfl
  | cons r rest ih =>
    by_cases h : (r.serverName == m && r.isLatest) = true
    · have hname : r.serverName = m := by
        have := (Bool.and_eq_true _ _).mp h
        exact beq_iff_eq.mp this.1
      have h1 : unmarkRecord m r = { r with isLatest := false } := by
        simp [unmarkRecord, h]
      have hne : (r.serverName == n) = false := by
        simp [hname]
        exact hmn
      simp only [List.map_cons, h1, countLatest, List.filter_cons] at *
      simp only [hne, Bool.false_and, if_false] at *
      exact ih
    · have h1 : unmarkRecord m r = r := by
        simp only [unmarkRecord, if_neg h]
      unfold countLatest at ih ⊢
      rw [List.map_cons, h1, List.filter_cons, List.filter_cons]
      by_cases h2 : (r.serverName == n && r.isLatest) = true
      · rw [if_pos h2, if_pos h2, List.length_cons, List.length_cons, ih]
      · rw [if_neg h2, if_neg h2]
        exact ih

theorem countLatest_append (l : List serverRecord) (r : serverRecord) (n : String) :
    countLatest (l ++ [r]) n =
      countLatest l n + (if (r.serverName == n && r.isLatest) = true then 1 else 0) := by
  by_cases h : (r.serverName == n && r.isLatest) = true <;>
    simp [countLatest, List.filter_append, List.filter_cons, h]

theorem publishOrdered_latest_le (ops : List DBOp) :
    ∀ (prev : Option String) (db : JSONFileDB),
      (∀ n, countLatest db.data.servers n ≤ 1) →
      (∀ n, prev = some n → countLatest db.data.servers n = 0) →
      publishOrdered prev ops = true →
      ∀ n, countLatest (runOps db ops).data.servers n ≤ 1 := by
  induction ops with
  | nil =>
    intro prev db hInv _ _ n
    exact hInv n
  | cons op rest ih =>
    intro prev db hInv hprev hord n
    have hstep : runOps db (op :: rest) = runOps (applyOp db op) rest := rfl
    rw [hstep]
    cases op with
    | unmark m =>
      have hord' : publishOrdered (some m) rest = true := hord
      refine ih (some m) (applyOp db (.unmark m)) ?_ ?_ hord' n
      · intro k
        show countLatest (UnmarkAsLatest db m).data.servers k ≤ 1
        rw [UnmarkAsLatest_data]
        by_cases hk : m = k
        · subst hk
          rw [countLatest_unmark_self]
          omega
        · rw [countLatest_unmark_ne _ hk]
          exact hInv k
      · intro k hk
        have hk' := Option.some.inj hk
        subst hk'
        show countLatest (UnmarkAsLatest db m).data.servers m = 0
        rw [UnmarkAsLatest_data, countLatest_unmark_self]
    | create now s meta =>
      have hord2 : ((if marksLatest meta then prev == some s.name else true)
          && publishOrdered none rest) = true := hord
      obtain ⟨hcond, hord'⟩ := (Bool.and_eq_true _ _).mp hord2
      refine ih none (applyOp db (.create now s meta)) ?_
        (fun k hk => Option.noConfusion hk) hord' n
      intro k
      show countLatest (CreateServer db now s meta).2.data.servers k ≤ 1
      rw [CreateServer_snd_data]
      by_cases hdup : hasNameVersion db.data.servers s.name s.version = true
      · rw [if_pos hdup]
        exact hInv k
      · rw [if_neg hdup, countLatest_append]
        by_cases hm : marksLatest meta = true
        · have hcond' : (prev == some s.name) = true := by simpa [hm] using hcond
          have hprevEq : prev = some s.name := by
            cases prev with
            | none => simp at hcond'
            | some p =>
              have : p = s.name := by simpa using hcond'
              rw [this]
          have hzero : countLatest db.data.servers s.name = 0 := hprev s.name hprevEq
          by_cases hk : s.name = k
          · subst hk
            simp [createdRecord_serverName, createdRecord_isLatest, hm, hzero]
          · have hbeq : ((createdRecord now s meta).serverName == k) = false := by
              rw [createdRecord_serverName]
              simpa using hk
            simpa [hbeq] using hInv k
        · have hlat : (createdRecord now s meta).isLatest = false := by
            rw [createdRecord_isLatest]
            simpa using hm
          simpa [hlat] using hInv k

/-- C1: the claim quantifies over *every* sequence of `CreateServer` and
`UnmarkAsLatest` calls, but `CreateServer` itself never unmarks a previous
latest record: two plain creates of the same name (nil metadata defaults to
`isLatest = true`) leave two latest records for that name. -/
theorem c1_counterexample :
    ¬ countLatest (runOps emptyDB
        [.create 0 (mkServerJSON "a" "1.0.0") none,
         .create 1 (mkServerJSON "a" "2.0.0") none]).data.servers "a" ≤ 1 := by
  decide

/-- C1 (amended): after any sequence of `CreateServer`/`UnmarkAsLatest`
calls starting from the empty dataset in which every `CreateServer` that
marks its record as latest is immediately preceded by an `UnmarkAsLatest`
call for the same server name — the order the Registry Service supplies
inside a publish transaction — at most one record per name has
`isLatest = true`. -/
theorem c1_amended (ops : List DBOp) (h : publishOrdered none ops = true)
    (name : String) :
    countLatest (runOps emptyDB ops).data.servers name ≤ 1 :=
  publishOrdered_latest_le ops none emptyDB (fun _ => Nat.zero_le 1)
    (fun _ hn => Option.noConfusion hn) h name

/-- Witness for the amended C1: a concrete publish-ordered sequence of two
publishes to the same name satisfies the hypothesis and the invariant. -/
theorem c1_amended_witness :
    publishOrdered none
        [.unmark "a", .create 0 (mkServerJSON "a" "1.0.0") none,
         .unmark "a", .create 1 (mkServerJSON "a" "2.0.0") none] = true
    ∧ countLatest (runOps emptyDB
        [.unmark "a", .create 0 (mkServerJSON "a" "1.0.0") none,
         .unmark "a", .create 1 (mkServerJSON "a" "2.0.0") none]).data.servers "a" ≤ 1 :=
  ⟨by decide, c1_amended _ (by decide) "a"⟩

/-- C2: evaluation of `ListServers` at the failing input. On `dbPagination`
with the name-`b` filter and limit 1, the first page returns record `b@1`
but a cursor naming `a:1` — a record that was filtered out and never
returned (the code reads `Servers[startIndex+len(results)-1]`, ignoring
filter skips). Resubmitting that cursor returns `b@1` a second time:
duplicate results, contradicting the claim that the cursor encodes the
last returned record and that pages never overlap. -/
theorem c2_cursor_code_eval :
    ListServers dbPagination (some filterNameB) "" 1 = some ([respB1], "a:1")
    ∧ ListServers dbPagination (some filterNameB) "a:1" 1 = some ([respB1], "b:1") := by
  constructor <;> decide

/-- C3: evaluation of `ListServers` at the dataset of the repository's own
test `TestListServers_WithNilValue` (one valid record, one with a nil
payload). The code appends `*record.Value` without a nil check, so listing
panics (`none`) instead of skipping the nil record and returning the valid
one. -/
theorem c3_nil_payload_code_eval :
    ListServers dbNilValue none "" 100 = none := by
  decide

/-- C4: the claim is false for an absent file — `Reload` calls `load`,
whose `os.ReadFile` fails and is returned as an error with the dataset
untouched (only `NewJSONFileDB` treats absence as an empty dataset). -/
theorem c4_counterexample :
    (Reload dbAbsentFile).1 = some LoadError.ioError
    ∧ (Reload dbAbsentFile).2.data.servers ≠ [] := by
  constructor
  · rfl
  · decide

/-- C4 (amended): `Reload` returns an error and leaves the in-memory
dataset unchanged when the target file is absent; if the file is present
but empty it keeps the dataset unchanged with no error; if it parses, the
dataset is replaced wholesale by the file's contents; a parse failure
returns an error with the dataset unchanged. -/
theorem c4_amended (db : JSONFileDB) :
    (db.file = .absent → Reload db = (some .ioError, db))
    ∧ (db.file = .contents .empty → Reload db = (none, db))
    ∧ (∀ d, db.file = .contents (.valid d) → Reload db = (none, { db with data := d }))
    ∧ (db.file = .contents .malformed → Reload db = (some .parseError, db)) := by
  refine ⟨fun h => ?_, fun h => ?_, fun d h => ?_, fun h => ?_⟩ <;>
    simp [Reload, load, h]

/-- Witness for the amended C4 at a backend with a non-empty dataset and an
absent file. -/
theorem c4_amended_witness :
    dbAbsentFile.file = FileState.absent
    ∧ Reload dbAbsentFile = (some LoadError.ioError, dbAbsentFile) :=
  ⟨rfl, (c4_amended dbAbsentFile).1 rfl⟩

/-- C5: `CreateServer` returns `ErrAlreadyExists` exactly when a record
with the same name and version exists; with the extensions argument
omitted (nil), the stored record has `status = "active"`, both timestamps
equal to `now`, and `isLatest = true`, and the response carries the same
defaulted metadata. -/
theorem c5_create_contract (db : JSONFileDB) (now : Nat) (s : ServerJSON)
    (meta : Option RegistryExtensions) :
    ((CreateServer db now s meta).1 = .error .alreadyExists ↔
      ∃ r ∈ db.data.servers, r.serverName = s.name ∧ r.version = s.version)
    ∧ (meta = none →
        (¬ ∃ r ∈ db.data.servers, r.serverName = s.name ∧ r.version = s.version) →
        (CreateServer db now s meta).1 = .ok { server := s, meta := some (defaultMeta now) }
        ∧ (CreateServer db now s meta).2.data.servers = db.data.servers ++
            [{ serverName := s.name, version := s.version, status := "active",
               publishedAt := now, updatedAt := now, isLatest := true,
               value := some s, meta := some (defaultMeta now) }]) := by
  constructor
  · by_cases hdup : hasNameVersion db.data.servers s.name s.version = true
    · constructor
      · intro _
        exact (hasNameVersion_iff db.data.servers s.name s.version).mp hdup
      · intro _
        simp [CreateServer, hdup]
    · constructor
      · intro hcontr
        unfold CreateServer at hcontr
        rw [if_neg hdup] at hcontr
        exact absurd hcontr (by simp)
      · intro hex
        exact absurd ((hasNameVersion_iff db.data.servers s.name s.version).mpr hex) hdup
  · intro hmeta hnex
    subst hmeta
    have hdup : ¬ hasNameVersion db.data.servers s.name s.version = true := by
      intro hc
      exact hnex ((hasNameVersion_iff db.data.servers s.name s.version).mp hc)
    constructor
    · simp [CreateServer, hdup]
    · simp [CreateServer, hdup, createdRecord, defaultMeta, save]

/-- Witness for C5 on the empty backend: a create with omitted extensions
succeeds and stores the defaulted record. -/
theorem c5_create_contract_witness :
    (CreateServer emptyDB 7 (mkServerJSON "a" "1.0.0") none).1 =
      .ok { server := mkServerJSON "a" "1.0.0", meta := some (defaultMeta 7) } :=
  ((c5_create_contract emptyDB 7 (mkServerJSON "a" "1.0.0") none).2 rfl (by decide)).1

/-- C6: after a successful `CreateServer`, an immediate
`GetServerByNameAndVersion` with the same name and version returns a
response whose payload equals the payload passed to `CreateServer`. -/
theorem c6_roundtrip (db : JSONFileDB) (now : Nat) (s : ServerJSON)
    (meta : Option RegistryExtensions)
    (h : ∀ r ∈ db.data.servers, ¬ (r.serverName = s.name ∧ r.version = s.version)) :
    ∃ resp, GetServerByNameAndVersion (CreateServer db now s meta).2 s.name s.version
        = some (.ok resp) ∧ resp.server = s := by
  have hdup : ¬ hasNameVersion db.data.servers s.name s.version = true := by
    intro hc
    obtain ⟨r, hr, h1, h2⟩ := (hasNameVersion_iff db.data.servers s.name s.version).mp hc
    exact h r hr ⟨h1, h2⟩
  have hdata : (CreateServer db now s meta).2.data.servers
      = db.data.servers ++ [createdRecord now s meta] := by
    rw [CreateServer_snd_data, if_neg hdup]
  have hfind : db.data.servers.find?
      (fun r => r.serverName == s.name && r.version == s.version) = none := by
    apply List.find?_eq_none.mpr
    intro r hr hc
    have hc' := (Bool.and_eq_true _ _).mp hc
    exact h r hr ⟨beq_iff_eq.mp hc'.1, beq_iff_eq.mp hc'.2⟩
  have hp : ((createdRecord now s meta).serverName == s.name
      && (createdRecord now s meta).version == s.version) = true := by
    simp [createdRecord]
  unfold GetServerByNameAndVersion
  rw [hdata, List.find?_append, hfind]
  simp only [Option.none_or, List.find?, hp]
  have hv : (createdRecord now s meta).value = some s := rfl
  rw [hv]
  exact ⟨_, rfl, rfl⟩

/-- Witness for C6 on the empty backend. -/
theorem c6_roundtrip_witness :
    ∃ resp, GetServerByNameAndVersion
        (CreateServer emptyDB 7 (mkServerJSON "a" "1.0.0") none).2
        (mkServerJSON "a" "1.0.0").name (mkServerJSON "a" "1.0.0").version
        = some (.ok resp) ∧ resp.server = mkServerJSON "a" "1.0.0" :=
  c6_roundtrip emptyDB 7 (mkServerJSON "a" "1.0.0") none (by decide)

/-- C7: `ParseS3URL` maps each of the five accepted shapes to the literal
bucket/key substrings, rejects the three malformed inputs with an error,
and virtual-hosted-style parsing is attempted before path-style: whenever
the virtual-hosted parse succeeds, its result is the one returned. -/
theorem c7_parse_s3_url :
    (ParseS3URL "s3://bucket/key".data = .ok ("bucket".data, "key".data)
     ∧ ParseS3URL "https://bucket.s3.us-east-1.amazonaws.com/key".data
        = .ok ("bucket".data, "key".data)
     ∧ ParseS3URL "https://bucket.s3.amazonaws.com/key".data
        = .ok ("bucket".data, "key".data)
     ∧ ParseS3URL "https://s3.us-west-2.amazonaws.com/bucket/key".data
        = .ok ("bucket".data, "key".data)
     ∧ ParseS3URL "https://s3.amazonaws.com/bucket/key".data
        = .ok ("bucket".data, "key".data)
     ∧ (ParseS3URL "https://example.com/file.json".data).isOk = false
     ∧ (ParseS3URL "s3://bucket".data).isOk = false
     ∧ (ParseS3URL "".data).isOk = false)
    ∧ ∀ (host path : List Char) (bk : List Char × List Char),
        parseVirtualHostedStyle host path = some bk → tryS3Styles host path = .ok bk := by
  constructor
  · decide
  · intro host path bk h
    simp [tryS3Styles, h]

/-- Witness for the ordering part of C7: a host both styles could claim is
resolved by the virtual-hosted parse. -/
theorem c7_parse_s3_url_witness :
    parseVirtualHostedStyle "bucket.s3.amazonaws.com".data "key".data
      = some ("bucket".data, "key".data)
    ∧ tryS3Styles "bucket.s3.amazonaws.com".data "key".data
      = .ok ("bucket".data, "key".data) :=
  ⟨by decide, c7_parse_s3_url.2 _ _ _ (by decide)⟩

theorem processLoop_eq (env : SyncEnv) (msgs : List QueueMessage) :
    processLoop env msgs =
      (msgs.filter (fun m => (processMessage env m).isOk),
       msgs.filter (fun m => !(processMessage env m).isOk)) := by
  induction msgs with
  | nil => rfl
  | cons m rest ih =>
    cases hpm : processMessage env m with
    | ok u => simp [processLoop, hpm, List.filter_cons, ih, Except.isOk, Except.toBool]
    | error e => simp [processLoop, hpm, List.filter_cons, ih, Except.isOk, Except.toBool]

theorem pollMessages_eq (env : SyncEnv) (events : List PollEvent) :
    pollMessages env events =
      ((events.map (fun e =>
          match e with
          | .recvError => []
          | .batch ms => ms.filter (fun m => (processMessage env m).isOk))).flatten,
       events.countP (fun e =>
          match e with
          | .recvError => true
          | .batch _ => false)) := by
  induction events with
  | nil => rfl
  | cons e rest ih =>
    cases e with
    | recvError =>
      simp [pollMessages, receiveAndProcessMessages, ih, List.countP_cons]
    | batch ms =>
      simp [pollMessages, receiveAndProcessMessages, processLoop_eq, ih, List.countP_cons]

/-- C8: in every batch, exactly the messages whose processing succeeded are
deleted and exactly the failed ones are left in the queue; across a whole
trace of poll iterations every batch is processed (a failed message or a
failed receive never stops the loop), a receive failure only adds one
backoff sleep, and the deleted messages are the per-iteration successes in
order. -/
theorem c8_delete_iff_processed (env : SyncEnv) (msgs : List QueueMessage)
    (events : List PollEvent) :
    (processLoop env msgs).1 = msgs.filter (fun m => (processMessage env m).isOk)
    ∧ (processLoop env msgs).2 = msgs.filter (fun m => !(processMessage env m).isOk)
    ∧ (pollMessages env events).1 = (events.map (fun e =>
        match e with
        | .recvError => []
        | .batch ms => ms.filter (fun m => (processMessage env m).isOk))).flatten
    ∧ (pollMessages env events).2 = events.countP (fun e =>
        match e with
        | .recvError => true
        | .batch _ => false) := by
  refine ⟨?_, ?_, ?_, ?_⟩ <;> simp [processLoop_eq, pollMessages_eq]

/-- C9: the queue-message envelope key in the code is `s3_uri`, not
`location`. A body carrying the reference under the key `location`
unmarshals to an `SQSMessage` with an empty `S3URI` (unknown JSON keys are
ignored) and processing fails before any download, even with a valid
reference and an environment where every download would succeed. -/
theorem c9_counterexample :
    processMessage envAllOk
      { messageId := "m1", body := .object [("location", "s3://bucket/key")],
        receiptHandle := "r1" }
      = .error .missingS3URI := by
  decide

/-- C9 (amended): the envelope carries the object reference under the JSON
key `s3_uri`. With a valid short-form or HTTPS reference under that key,
processing parses the envelope, extracts the reference and proceeds to the
download stage (it can only fail at download or reload); a body that is not
a JSON document of the expected shape is a parse failure. -/
theorem c9_amended (env : SyncEnv) (mid rh ref : String) (bk : List Char × List Char)
    (h : ParseS3URI' ref.data = .ok bk) :
    (processMessage env
        { messageId := mid, body := .object [("s3_uri", ref)], receiptHandle := rh }
        ≠ .error .parseBody
     ∧ processMessage env
        { messageId := mid, body := .object [("s3_uri", ref)], receiptHandle := rh }
        ≠ .error .missingS3URI
     ∧ processMessage env
        { messageId := mid, body := .object [("s3_uri", ref)], receiptHandle := rh }
        ≠ .error .invalidS3URI)
    ∧ processMessage env { messageId := mid, body := .invalid, receiptHandle := rh }
        = .error .parseBody := by
  have hne : (ref == "") = false := by
    by_cases he : ref = ""
    · subst he
      have hcontr : ParseS3URI' (String.data "")
          = Except.error "invalid S3 URL: must start with s3:// or https://" := rfl
      rw [hcontr] at h
      exact Except.noConfusion h
    · simpa using he
  have hdecode : unmarshalSQSMessage (.object [("s3_uri", ref)]) = some { s3URI := ref } := by
    simp [unmarshalSQSMessage, List.find?]
  have hshape : processMessage env
      { messageId := mid, body := .object [("s3_uri", ref)], receiptHandle := rh }
      = if env.downloadOk bk.1 bk.2 then
          (match env.reloadCallback with
           | none => .ok ()
           | some true => .ok ()
           | some false => .error .reloadFailed)
        else .error .downloadFailed := by
    simp [processMessage, hdecode, hne, h]
  refine ⟨⟨?_, ?_, ?_⟩, rfl⟩ <;> rw [hshape] <;>
    cases env.downloadOk bk.1 bk.2 <;> rcases env.reloadCallback with _ | (_ | _) <;> simp

/-- Witness for the amended C9 on a concrete valid short-form reference in
an all-successful environment. -/
theorem c9_amended_witness :
    ParseS3URI' "s3://b/k".data = .ok ("b".data, "k".data)
    ∧ processMessage envAllOk
        { messageId := "m1", body := .object [("s3_uri", "s3://b/k")], receiptHandle := "r1" }
        ≠ .error .parseBody :=
  ⟨by decide, (c9_amended envAllOk "m1" "r1" "s3://b/k" ("b".data, "k".data) (by decide)).1.1⟩

/-- C10: `CreateServer` on an existing (name, version) returns
`ErrAlreadyExists` and leaves the backend — in-memory dataset and
persisted file alike — completely unchanged: the returned state is the
input state, so no record is appended and no save is performed. -/
theorem c10_duplicate_create_unchanged (db : JSONFileDB) (now : Nat) (s : ServerJSON)
    (meta : Option RegistryExtensions)
    (h : ∃ r ∈ db.data.servers, r.serverName = s.name ∧ r.version = s.version) :
    CreateServer db now s meta = (.error .alreadyExists, db) := by
  have hdup : hasNameVersion db.data.servers s.name s.version = true :=
    (hasNameVersion_iff db.data.servers s.name s.version).mpr h
  simp [CreateServer, hdup]

/-- Witness for C10 on a backend holding the record `a@1` with a saved
file image. -/
theorem c10_duplicate_create_unchanged_witness :
    (∃ r ∈ dbOneRecord.data.servers,
        r.serverName = (mkServerJSON "a" "1").name ∧ r.version = (mkServerJSON "a" "1").version)
    ∧ CreateServer dbOneRecord 9 (mkServerJSON "a" "1") none
        = (.error .alreadyExists, dbOneRecord) :=
  ⟨by decide, c10_duplicate_create_unchanged dbOneRecord 9 (mkServerJSON "a" "1") none (by decide)⟩

end MCPRegistry
